import Mathlib

/-!
Shallow embedding of the metric-engine and snapshot-store core of
`src/utils.py` (HyperCore Wallet Tracker).

Modelling conventions:
* Python floats are modelled by `ℚ` (exact rational arithmetic); numeric
  strings coming from the API (e.g. `"0.0505"`) are modelled by the rational
  value Python's `float()` parse denotes.
* `datetime` timestamps are modelled by `ℚ`, measured in days, so that
  `datetime.now() - timedelta(days=d)` becomes `now - d`.  ISO-format
  timestamp strings stored in SQLite compare lexicographically exactly as the
  underlying datetimes compare, so a linearly ordered number type is a
  faithful abstraction.
* A pandas DataFrame of trades is a list of rows plus a flag recording
  whether the optional `pnl` column is present (pandas columns exist for all
  rows or for none).  The columns `timestamp, coin, side, size, price, fee,
  value_usd` are always present on every trade DataFrame this program builds
  (`get_trade_history` materialises `value_usd` at utils.py:172-173, demo
  data and stored rows always carry it), so they are plain fields of a row;
  consequently the `elif`/`else` fallbacks of `calculate_volume`
  (utils.py:350-353) are unreachable and only its first branch is modelled.
* SQLite tables are lists of rows in insertion (rowid) order; `INSERT`
  appends, `SELECT ... WHERE` filters in rowid order, `MAX(timestamp)` is the
  optional maximum of the timestamp column, `ORDER BY timestamp DESC` is a
  stable sort by descending timestamp, `LIMIT n` is `List.take n`.
  The `id INTEGER PRIMARY KEY AUTOINCREMENT` column is not modelled; rows
  are identified by their position.
-/

/-- A balance entry as returned by the HyperCore API / consumed by
`calculate_portfolio_value` and `store_wallet_data`: a dict
`{"coin": ..., "total": ...}` with the numeric string `total` parsed to `ℚ`. -/
structure Balance where
  coin : String
  total : ℚ
deriving DecidableEq, Repr

/-- A price dict `coin ↦ USD price`, modelled as an association list;
`prices.get(coin, 0)` is `(lookup coin).getD 0`. -/
abbrev Prices := List (String × ℚ)

/-- `prices.get(coin, 0)` of utils.py:283/365. -/
def priceOf (prices : Prices) (coin : String) : ℚ :=
  (prices.lookup coin).getD 0

/-- One row of a pandas trade DataFrame.  The `pnl` field is only meaningful
when the DataFrame's `hasPnl` flag is set (the optional `pnl` column). -/
structure TradeRow where
  timestamp : ℚ
  coin : String
  side : String
  size : ℚ
  price : ℚ
  fee : ℚ
  value_usd : ℚ
  pnl : ℚ
deriving DecidableEq, Repr

/-- A pandas DataFrame of trades: rows in order, plus presence of the
optional `pnl` column. -/
structure TradesDF where
  rows : List TradeRow
  hasPnl : Bool
deriving DecidableEq, Repr

/-- `calculate_portfolio_value(balances, prices)` (utils.py:277-285):
running sum of `amount * price` with missing coins priced 0. -/
def calculate_portfolio_value (balances : List Balance) (prices : Prices) : ℚ :=
  balances.foldl (fun total_value b => total_value + b.total * priceOf prices b.coin) 0

/-- The period-label → days dict of utils.py:293-298 and 333-338, including
the `.get(time_period, 30)` default for unknown labels. -/
def periodDays (time_period : String) : ℚ :=
  if time_period = "24 hours" then 1
  else if time_period = "7 days" then 7
  else if time_period = "30 days" then 30
  else if time_period = "All time" then 9999
  else 30

/-- The window filter `trades_df[trades_df['timestamp'] >= start_date]` with
`start_date = datetime.now() - timedelta(days=days)` (utils.py:301-302). -/
def periodTrades (rows : List TradeRow) (now days : ℚ) : List TradeRow :=
  rows.filter (fun t => now - days ≤ t.timestamp)

/-- `calculate_pnl(trades_df, current_prices, time_period)` (utils.py:287-325).
`current_prices` is never read by the body; the parameter is kept for
faithfulness.  Returns `(total_pnl, pnl_percentage)`. -/
def calculate_pnl (trades_df : TradesDF) (current_prices : Prices)
    (time_period : String) (now : ℚ) : ℚ × ℚ :=
  let _ := current_prices
  if trades_df.rows = [] then (0, 0)
  else
    let days := periodDays time_period
    let period_trades := periodTrades trades_df.rows now days
    if period_trades = [] then (0, 0)
    else
      let total_pnl :=
        if trades_df.hasPnl then (period_trades.map (·.pnl)).sum
        else
          let buys := period_trades.filter (fun t => t.side = "buy")
          let sells := period_trades.filter (fun t => t.side = "sell")
          let buy_value := if buys = [] then 0 else (buys.map (·.value_usd)).sum
          let sell_value := if sells = [] then 0 else (sells.map (·.value_usd)).sum
          sell_value - buy_value
      let investment := (period_trades.map (·.value_usd)).sum / 2
      let pnl_percentage := if 0 < investment then total_pnl / investment * 100 else 0
      (total_pnl, pnl_percentage)

/-- `calculate_volume(trades_df, time_period)` (utils.py:327-353).  Every
trade DataFrame in this program carries `value_usd`, so only the first of the
three result branches is reachable (see module docstring). -/
def calculate_volume (trades_df : TradesDF) (time_period : String) (now : ℚ) : ℚ :=
  if trades_df.rows = [] then 0
  else
    let days := periodDays time_period
    let period_trades := periodTrades trades_df.rows now days
    if period_trades = [] then 0
    else (period_trades.map (·.value_usd)).sum

/-! ## Data Source Adapter (`get_token_balances`, utils.py:85-111) -/

/-- Outcome of the HTTP POST + JSON parse in `get_token_balances`: either some
exception was raised during the request or parse, or a JSON document was
obtained whose `"balances"` key is either absent or holds a balance list. -/
inductive ApiResult where
  | failure
  | success (balances : Option (List Balance))
deriving DecidableEq, Repr

/-- The fixed demo dataset of utils.py:98-102 / 107-111
(`[{coin: "HYPE", total: "0.0505"}, {coin: "USDC", total: "0.0000"},
{coin: "USDT", total: "0.0010"}]`, numeric strings read as rationals). -/
def demoBalances : List Balance :=
  [⟨"HYPE", 0.0505⟩, ⟨"USDC", 0.0000⟩, ⟨"USDT", 0.0010⟩]

/-- `get_token_balances(wallet, api_endpoint)` (utils.py:85-111), as a
function of the fetch outcome: any exception and any response without a
`"balances"` key yield the demo data, otherwise the `"balances"` value is
returned.  Wallet and endpoint only influence the fetch outcome. -/
def get_token_balances (resp : ApiResult) : List Balance :=
  match resp with
  | .failure => demoBalances
  | .success none => demoBalances
  | .success (some balances) => balances

/-! ## Snapshot Store (utils.py:356-463) -/

/-- A row of the `balances` table (utils.py:54-64), minus the surrogate `id`. -/
structure BalanceRow where
  wallet : String
  timestamp : ℚ
  coin : String
  amount : ℚ
  price : ℚ
  value_usd : ℚ
deriving DecidableEq, Repr

/-- A row of the `trades` table (utils.py:67-79), minus the surrogate `id`. -/
structure StoredTrade where
  wallet : String
  timestamp : ℚ
  coin : String
  side : String
  size : ℚ
  price : ℚ
  fee : ℚ
  value_usd : ℚ
deriving DecidableEq, Repr

/-- The SQLite database: both tables as lists of rows in rowid order. -/
structure DB where
  balances : List BalanceRow
  trades : List StoredTrade
deriving DecidableEq, Repr

/-- The balance row built and inserted by the loop of utils.py:362-371:
`value_usd = amount * price` with `price = prices.get(coin, 0)`. -/
def mkBalanceRow (wallet : String) (timestamp : ℚ) (prices : Prices)
    (b : Balance) : BalanceRow :=
  { wallet := wallet
    timestamp := timestamp
    coin := b.coin
    amount := b.total
    price := priceOf prices b.coin
    value_usd := b.total * priceOf prices b.coin }

/-- The trade row inserted by utils.py:380-392: the row keeps the trade's own
`timestamp` (line 384), not the snapshot timestamp.  The essential columns
(`timestamp, coin, side, size, price`) are always present on this program's
trade DataFrames, so the skip guard of line 377 never fires. -/
def mkStoredTrade (wallet : String) (t : TradeRow) : StoredTrade :=
  { wallet := wallet
    timestamp := t.timestamp
    coin := t.coin
    side := t.side
    size := t.size
    price := t.price
    fee := t.fee
    value_usd := t.value_usd }

/-- `store_wallet_data(conn, wallet, balances, prices, trades)`
(utils.py:356-394).  `now` models the single `datetime.now().isoformat()`
captured at line 359; all inserted balance rows are stamped with it, while
trade rows are stamped with each trade's own timestamp. -/
def store_wallet_data (db : DB) (wallet : String) (balances : List Balance)
    (prices : Prices) (trades : Option TradesDF) (now : ℚ) : DB :=
  let balRows := balances.map (mkBalanceRow wallet now prices)
  let tradeRows :=
    match trades with
    | none => []
    | some df => if df.rows = [] then [] else df.rows.map (mkStoredTrade wallet)
  { balances := db.balances ++ balRows
    trades := db.trades ++ tradeRows }

/-- `SELECT MAX(timestamp) ...`: the optional maximum of a timestamp column. -/
def maxTimestamp : List ℚ → Option ℚ
  | [] => none
  | t :: ts =>
    match maxTimestamp ts with
    | none => some t
    | some m => some (max t m)

/-- `get_latest_balances(conn, wallet)` (utils.py:396-428).  With a wallet:
the rows of that wallet at its maximal stored timestamp (empty when the
wallet has no rows).  Without: each wallet's rows at that wallet's maximal
timestamp (the `INNER JOIN` on per-wallet `MAX(timestamp)`). -/
def get_latest_balances (db : DB) (wallet : Option String) : List BalanceRow :=
  match wallet with
  | some w =>
    let walletRows := db.balances.filter (fun r => r.wallet = w)
    match maxTimestamp (walletRows.map (·.timestamp)) with
    | none => []
    | some max_time =>
      db.balances.filter (fun r => r.wallet = w ∧ r.timestamp = max_time)
  | none =>
    db.balances.filter (fun r =>
      maxTimestamp ((db.balances.filter (fun s => s.wallet = r.wallet)).map
        (·.timestamp)) = some r.timestamp)

/-- Stable insertion of a trade row into a list sorted by descending
timestamp (ties keep earlier rows first). -/
def insertDesc (r : StoredTrade) : List StoredTrade → List StoredTrade
  | [] => [r]
  | x :: xs => if x.timestamp < r.timestamp then r :: x :: xs else x :: insertDesc r xs

/-- Stable sort by descending timestamp: the `ORDER BY timestamp DESC` of
utils.py:454/459. -/
def sortByTimestampDesc : List StoredTrade → List StoredTrade
  | [] => []
  | r :: rs => insertDesc r (sortByTimestampDesc rs)

/-- `get_recent_trades(conn, wallet, limit)` (utils.py:448-463): optional
wallet filter, then `ORDER BY timestamp DESC LIMIT limit`. -/
def get_recent_trades (db : DB) (wallet : Option String) (limit : ℕ) : List StoredTrade :=
  let rows :=
    match wallet with
    | some w => db.trades.filter (fun r => r.wallet = w)
    | none => db.trades
  (sortByTimestampDesc rows).take limit

/-! ## Helper lemmas -/

/-- Folding the portfolio accumulator over an empty price map never moves the
accumulator. -/
theorem foldl_portfolio_empty_prices (bs : List Balance) (acc : ℚ) :
    bs.foldl (fun total_value b => total_value + b.total * priceOf [] b.coin) acc = acc := by
  induction bs generalizing acc with
  | nil => rfl
  | cons b bs ih =>
    rw [List.foldl_cons]
    have hz : acc + b.total * priceOf [] b.coin = acc := by
      simp [priceOf]
    rw [hz]
    exact ih acc

/-- Evaluation of the period dict at `"24 hours"`. -/
theorem periodDays_24 : periodDays "24 hours" = 1 := by decide

/-- Evaluation of the period dict at `"7 days"`. -/
theorem periodDays_7 : periodDays "7 days" = 7 := by decide

/-- Evaluation of the period dict at `"30 days"`. -/
theorem periodDays_30 : periodDays "30 days" = 30 := by decide

/-- Evaluation of the period dict at `"All time"`. -/
theorem periodDays_all : periodDays "All time" = 9999 := by decide

/-- A filtered `value_usd` sum is non-negative when every row's `value_usd`
is. -/
theorem sum_value_filter_nonneg (l : List TradeRow) (p : TradeRow → Bool)
    (hnn : ∀ r ∈ l, 0 ≤ r.value_usd) : 0 ≤ ((l.filter p).map (·.value_usd)).sum := by
  induction l with
  | nil => simp
  | cons x xs ih =>
    have ihx := ih (fun r hr => hnn r (List.mem_cons_of_mem _ hr))
    rw [List.filter_cons]
    by_cases h : p x = true
    · rw [if_pos h, List.map_cons, List.sum_cons]
      exact add_nonneg (hnn x (List.mem_cons_self _ _)) ihx
    · rw [if_neg h]
      exact ihx

/-- Widening a filter can only grow a sum of non-negative `value_usd`. -/
theorem sum_value_filter_mono (l : List TradeRow) (p q : TradeRow → Bool)
    (hnn : ∀ r ∈ l, 0 ≤ r.value_usd) (himp : ∀ r, p r = true → q r = true) :
    ((l.filter p).map (·.value_usd)).sum ≤ ((l.filter q).map (·.value_usd)).sum := by
  induction l with
  | nil => simp
  | cons x xs ih =>
    have ihx := ih (fun r hr => hnn r (List.mem_cons_of_mem _ hr))
    rw [List.filter_cons, List.filter_cons]
    by_cases hp : p x = true
    · rw [if_pos hp, if_pos (himp x hp), List.map_cons, List.sum_cons, List.map_cons, List.sum_cons]
      exact add_le_add_left ihx _
    · rw [if_neg hp]
      by_cases hq : q x = true
      · rw [if_pos hq, List.map_cons, List.sum_cons]
        calc ((xs.filter p).map (·.value_usd)).sum ≤ ((xs.filter q).map (·.value_usd)).sum := ihx
          _ ≤ x.value_usd + ((xs.filter q).map (·.value_usd)).sum :=
            le_add_of_nonneg_left (hnn x (List.mem_cons_self _ _))
      · rw [if_neg hq]
        exact ihx

/-- `calculate_volume` is monotone in the mapped day count, for non-negative
`value_usd`. -/
theorem calculate_volume_mono_of_days (trades_df : TradesDF) (now : ℚ) (l1 l2 : String)
    (hnn : ∀ r ∈ trades_df.rows, 0 ≤ r.value_usd)
    (hd : periodDays l1 ≤ periodDays l2) :
    calculate_volume trades_df l1 now ≤ calculate_volume trades_df l2 now := by
  unfold calculate_volume
  by_cases hwe : trades_df.rows = []
  · simp [hwe]
  · rw [if_neg hwe, if_neg hwe]
    simp only [periodTrades]
    have himp : ∀ r : TradeRow, (decide (now - periodDays l1 ≤ r.timestamp)) = true →
        (decide (now - periodDays l2 ≤ r.timestamp)) = true := by
      intro r h
      rw [decide_eq_true_eq] at h ⊢
      linarith
    by_cases h1 : trades_df.rows.filter (fun t => decide (now - periodDays l1 ≤ t.timestamp)) = []
    · rw [if_pos h1]
      by_cases h2 : trades_df.rows.filter (fun t => decide (now - periodDays l2 ≤ t.timestamp)) = []
      · rw [if_pos h2]
      · rw [if_neg h2]
        exact sum_value_filter_nonneg _ _ hnn
    · rw [if_neg h1]
      have h2 : trades_df.rows.filter (fun t => decide (now - periodDays l2 ≤ t.timestamp)) ≠ [] := by
        obtain ⟨x, hx⟩ := List.exists_mem_of_ne_nil _ h1
        intro hc
        have hx2 : x ∈ trades_df.rows.filter (fun t => decide (now - periodDays l2 ≤ t.timestamp)) := by
          rw [List.mem_filter] at hx ⊢
          exact ⟨hx.1, himp x hx.2⟩
        rw [hc] at hx2
        exact List.not_mem_nil x hx2
      rw [if_neg h2]
      exact sum_value_filter_mono _ _ _ hnn himp

/-- Membership in a stable descending insertion. -/
theorem mem_insertDesc (r x : StoredTrade) (l : List StoredTrade) :
    x ∈ insertDesc r l ↔ x = r ∨ x ∈ l := by
  induction l with
  | nil => simp [insertDesc]
  | cons y ys ih =>
    by_cases h : y.timestamp < r.timestamp
    · simp only [insertDesc, if_pos h, List.mem_cons]
    · simp only [insertDesc, if_neg h, List.mem_cons, ih]
      tauto

/-- Descending insertion preserves the non-increasing-timestamp invariant. -/
theorem pairwise_insertDesc (r : StoredTrade) (l : List StoredTrade)
    (h : l.Pairwise (fun a b => b.timestamp ≤ a.timestamp)) :
    (insertDesc r l).Pairwise (fun a b => b.timestamp ≤ a.timestamp) := by
  induction l with
  | nil => simp [insertDesc]
  | cons y ys ih =>
    rw [List.pairwise_cons] at h
    obtain ⟨hy, hys⟩ := h
    by_cases hlt : y.timestamp < r.timestamp
    · simp only [insertDesc, if_pos hlt]
      rw [List.pairwise_cons]
      constructor
      · intro z hz
        rcases List.mem_cons.mp hz with rfl | hz'
        · exact le_of_lt hlt
        · exact le_trans (hy z hz') (le_of_lt hlt)
      · rw [List.pairwise_cons]
        exact ⟨hy, hys⟩
    · simp only [insertDesc, if_neg hlt]
      rw [List.pairwise_cons]
      constructor
      · intro z hz
        rcases (mem_insertDesc r z ys).mp hz with rfl | hz'
        · exact not_lt.mp hlt
        · exact hy z hz'
      · exact ih hys

/-- The `ORDER BY timestamp DESC` sort is sorted: timestamps are
non-increasing along its output. -/
theorem pairwise_sortByTimestampDesc (l : List StoredTrade) :
    (sortByTimestampDesc l).Pairwise (fun a b => b.timestamp ≤ a.timestamp) := by
  induction l with
  | nil => simp [sortByTimestampDesc]
  | cons r rs ih =>
    simp only [sortByTimestampDesc]
    exact pairwise_insertDesc r _ ih

/-- `MAX` of a non-empty constant column. -/
theorem maxTimestamp_all_eq (c : ℚ) (l : List ℚ) (hne : l ≠ []) (h : ∀ t ∈ l, t = c) :
    maxTimestamp l = some c := by
  induction l with
  | nil => exact absurd rfl hne
  | cons t ts ih =>
    have ht : t = c := h t (List.mem_cons_self _ _)
    by_cases hts : ts = []
    · subst hts
      simp [maxTimestamp, ht]
    · have hrec := ih hts (fun x hx => h x (List.mem_cons_of_mem _ hx))
      simp [maxTimestamp, hrec, ht, max_self]

/-- `MAX` over old strictly-smaller timestamps followed by a non-empty block
of timestamps equal to `c` is `c`. -/
theorem maxTimestamp_append_all_lt (l1 l2 : List ℚ) (c : ℚ)
    (h1 : ∀ t ∈ l1, t < c) (hne : l2 ≠ []) (h2 : ∀ t ∈ l2, t = c) :
    maxTimestamp (l1 ++ l2) = some c := by
  induction l1 with
  | nil => simpa using maxTimestamp_all_eq c l2 hne h2
  | cons t ts ih =>
    have hrec := ih (fun x hx => h1 x (List.mem_cons_of_mem _ hx))
    have ht : t < c := h1 t (List.mem_cons_self _ _)
    rw [List.cons_append]
    simp only [maxTimestamp, hrec]
    rw [max_eq_right (le_of_lt ht)]

/-! ## Claim theorems -/

/-- C6: `calculate_portfolio_value([], prices) == 0` for every price map, and
`calculate_portfolio_value(balances, {}) == 0` for every non-empty balance
list (missing coins contribute zero, no error). -/
theorem calculate_portfolio_value_empty_cases :
    (∀ prices : Prices, calculate_portfolio_value [] prices = 0) ∧
    (∀ balances : List Balance, balances ≠ [] → calculate_portfolio_value balances [] = 0) := by
  constructor
  · intro prices; rfl
  · intro balances _
    exact foldl_portfolio_empty_prices balances 0

/-- C6 witness: both parts at concrete inputs. -/
theorem calculate_portfolio_value_empty_cases_witness :
    calculate_portfolio_value [] [("HYPE", 3)] = 0 ∧
    calculate_portfolio_value [⟨"HYPE", 10⟩] [] = 0 :=
  ⟨calculate_portfolio_value_empty_cases.1 [("HYPE", 3)],
   calculate_portfolio_value_empty_cases.2 [⟨"HYPE", 10⟩] (by decide)⟩

/-- C8: whenever the balance fetch fails (exception during request/parse, or a
response without the `"balances"` key), `get_token_balances` does not raise
and returns the fixed fallback dataset HYPE 0.0505, USDC 0.0000, USDT 0.0010. -/
theorem get_token_balances_fallback (resp : ApiResult)
    (h : resp = .failure ∨ resp = .success none) :
    get_token_balances resp =
      [⟨"HYPE", 0.0505⟩, ⟨"USDC", 0.0000⟩, ⟨"USDT", 0.0010⟩] := by
  rcases h with h | h <;> subst h <;> rfl

/-- C8 witness: the fallback at an outright request failure. -/
theorem get_token_balances_fallback_witness :
    get_token_balances .failure =
      [⟨"HYPE", 0.0505⟩, ⟨"USDC", 0.0000⟩, ⟨"USDT", 0.0010⟩] :=
  get_token_balances_fallback .failure (Or.inl rfl)

/-- C9: on an empty trade set, `calculate_pnl` returns `(0, 0)` and
`calculate_volume` returns `0`, for every time-period label, without raising. -/
theorem empty_trades_all_metrics_zero (trades_df : TradesDF) (prices : Prices)
    (time_period : String) (now : ℚ) (h : trades_df.rows = []) :
    calculate_pnl trades_df prices time_period now = (0, 0) ∧
    calculate_volume trades_df time_period now = 0 := by
  constructor <;> simp [calculate_pnl, calculate_volume, h]

/-- C9 witness: the empty DataFrame with an arbitrary unknown label. -/
theorem empty_trades_all_metrics_zero_witness :
    calculate_pnl ⟨[], false⟩ [] "whenever" 0 = (0, 0) ∧
    calculate_volume ⟨[], false⟩ "whenever" 0 = 0 :=
  empty_trades_all_metrics_zero ⟨[], false⟩ [] "whenever" 0 rfl

/-- C7: an unknown time-period label behaves exactly like `"30 days"` in both
`calculate_pnl` and `calculate_volume`, for every trade set and price map. -/
theorem unknown_period_same_as_30_days (trades_df : TradesDF) (prices : Prices)
    (now : ℚ) (label : String)
    (h : label ∉ ["24 hours", "7 days", "30 days", "All time"]) :
    calculate_pnl trades_df prices label now = calculate_pnl trades_df prices "30 days" now ∧
    calculate_volume trades_df label now = calculate_volume trades_df "30 days" now := by
  simp only [List.mem_cons, List.not_mem_nil, or_false, not_or] at h
  obtain ⟨h1, h2, h3, h4⟩ := h
  have hd : periodDays label = periodDays "30 days" := by
    simp [periodDays, h1, h2, h3, h4]
  constructor
  · unfold calculate_pnl; rw [hd]
  · unfold calculate_volume; rw [hd]

/-- C7 witness: the label `"whenever"` on a concrete one-trade set. -/
theorem unknown_period_same_as_30_days_witness :
    calculate_pnl ⟨[⟨0, "HYPE", "buy", 1, 100, 0, 100, 0⟩], false⟩ [] "whenever" 0 =
      calculate_pnl ⟨[⟨0, "HYPE", "buy", 1, 100, 0, 100, 0⟩], false⟩ [] "30 days" 0 ∧
    calculate_volume ⟨[⟨0, "HYPE", "buy", 1, 100, 0, 100, 0⟩], false⟩ "whenever" 0 =
      calculate_volume ⟨[⟨0, "HYPE", "buy", 1, 100, 0, 100, 0⟩], false⟩ "30 days" 0 :=
  unknown_period_same_as_30_days ⟨[⟨0, "HYPE", "buy", 1, 100, 0, 100, 0⟩], false⟩ [] 0
    "whenever" (by decide)

/-- C1 (amended): storing a non-empty balance snapshot and then asking for the
wallet's latest balances returns exactly the rows just inserted, each with
`value_usd = amount * price`, provided every previously stored row of that
wallet has a strictly earlier timestamp. -/
theorem store_then_latest_balances (db : DB) (w : String) (bs : List Balance)
    (ps : Prices) (t : ℚ) (hne : bs ≠ [])
    (hold : ∀ r ∈ db.balances, r.wallet = w → r.timestamp < t) :
    get_latest_balances (store_wallet_data db w bs ps none t) (some w) =
      bs.map (mkBalanceRow w t ps) ∧
    ∀ r ∈ get_latest_balances (store_wallet_data db w bs ps none t) (some w),
      r.value_usd = r.amount * r.price := by
  have hstore : (store_wallet_data db w bs ps none t).balances =
      db.balances ++ bs.map (mkBalanceRow w t ps) := rfl
  have hfw : ∀ r ∈ bs.map (mkBalanceRow w t ps), r.wallet = w := by
    intro r hr
    obtain ⟨b, _, rfl⟩ := List.mem_map.mp hr
    rfl
  have hft : ∀ r ∈ bs.map (mkBalanceRow w t ps), r.timestamp = t := by
    intro r hr
    obtain ⟨b, _, rfl⟩ := List.mem_map.mp hr
    rfl
  have hnew_ne : bs.map (mkBalanceRow w t ps) ≠ [] := by
    intro hc
    exact hne (List.map_eq_nil_iff.mp hc)
  have hfilter_new : (bs.map (mkBalanceRow w t ps)).filter (fun r => decide (r.wallet = w)) =
      bs.map (mkBalanceRow w t ps) := by
    rw [List.filter_eq_self]
    intro r hr
    exact decide_eq_true (hfw r hr)
  have hmax : maxTimestamp
      (((db.balances ++ bs.map (mkBalanceRow w t ps)).filter
        (fun r => decide (r.wallet = w))).map (·.timestamp)) = some t := by
    rw [List.filter_append, hfilter_new, List.map_append]
    apply maxTimestamp_append_all_lt
    · intro x hx
      obtain ⟨r, hr, rfl⟩ := List.mem_map.mp hx
      obtain ⟨hrdb, hrw⟩ := List.mem_filter.mp hr
      exact hold r hrdb (of_decide_eq_true hrw)
    · intro hc
      exact hnew_ne (List.map_eq_nil_iff.mp hc)
    · intro x hx
      obtain ⟨r, hr, rfl⟩ := List.mem_map.mp hx
      exact hft r hr
  have hmain : get_latest_balances (store_wallet_data db w bs ps none t) (some w) =
      bs.map (mkBalanceRow w t ps) := by
    simp only [get_latest_balances, hstore, hmax]
    rw [List.filter_append]
    have hold_nil : db.balances.filter (fun r => decide (r.wallet = w ∧ r.timestamp = t)) = [] := by
      rw [List.filter_eq_nil_iff]
      intro r hr
      intro hc
      rw [decide_eq_true_eq] at hc
      exact absurd hc.2 (ne_of_lt (hold r hr hc.1))
    have hnew_all : (bs.map (mkBalanceRow w t ps)).filter
        (fun r => decide (r.wallet = w ∧ r.timestamp = t)) = bs.map (mkBalanceRow w t ps) := by
      rw [List.filter_eq_self]
      intro r hr
      rw [decide_eq_true_eq]
      exact ⟨hfw r hr, hft r hr⟩
    rw [hold_nil, hnew_all, List.nil_append]
  refine ⟨hmain, ?_⟩
  intro r hr
  rw [hmain] at hr
  obtain ⟨b, _, rfl⟩ := List.mem_map.mp hr
  rfl

/-- C1 witness: one-coin snapshot into an empty store. -/
theorem store_then_latest_balances_witness :
    get_latest_balances (store_wallet_data ⟨[], []⟩ "w" [⟨"HYPE", 3⟩] [("HYPE", 5)] none 1)
      (some "w") = [⟨"HYPE", 3⟩].map (mkBalanceRow "w" 1 [("HYPE", 5)]) ∧
    ∀ r ∈ get_latest_balances (store_wallet_data ⟨[], []⟩ "w" [⟨"HYPE", 3⟩] [("HYPE", 5)] none 1)
      (some "w"), r.value_usd = r.amount * r.price :=
  store_then_latest_balances ⟨[], []⟩ "w" [⟨"HYPE", 3⟩] [("HYPE", 5)] 1
    (List.cons_ne_nil _ _) (by simp)

/-- C1 counterexample: storing an empty balance list for a wallet that already
has a (strictly earlier) snapshot does not return the rows just inserted
(the empty list) — the previous snapshot is returned instead. -/
theorem store_then_latest_balances_empty_cex :
    (∀ r ∈ (⟨[⟨"w", 0, "HYPE", 1, 2, 2⟩], []⟩ : DB).balances,
      r.wallet = "w" → r.timestamp < 1) ∧
    get_latest_balances
        (store_wallet_data ⟨[⟨"w", 0, "HYPE", 1, 2, 2⟩], []⟩ "w" [] [] none 1) (some "w") ≠
      ([] : List Balance).map (mkBalanceRow "w" 1 []) := by
  decide

/-- C2 (amended): on a non-empty trade set carrying a `pnl` column whose
trades all lie within 9999 days of now, `calculate_pnl` with `"All time"`
returns a total equal to the exact sum of the `pnl` values. -/
theorem calculate_pnl_all_time_sum (trades_df : TradesDF) (prices : Prices) (now : ℚ)
    (hne : trades_df.rows ≠ []) (hp : trades_df.hasPnl = true)
    (hts : ∀ r ∈ trades_df.rows, now - 9999 ≤ r.timestamp) :
    (calculate_pnl trades_df prices "All time" now).1 = (trades_df.rows.map (·.pnl)).sum := by
  have hfilter : periodTrades trades_df.rows now (periodDays "All time") = trades_df.rows := by
    unfold periodTrades
    rw [List.filter_eq_self, periodDays_all]
    intro r hr
    exact decide_eq_true (hts r hr)
  simp only [calculate_pnl]
  rw [hfilter]
  simp [hne, hp]

/-- C2 witness: a single recent trade with `pnl = 3`. -/
theorem calculate_pnl_all_time_sum_witness :
    (calculate_pnl ⟨[⟨0, "HYPE", "buy", 1, 100, 0, 100, 3⟩], true⟩ [] "All time" 0).1 =
      ((⟨[⟨0, "HYPE", "buy", 1, 100, 0, 100, 3⟩], true⟩ : TradesDF).rows.map (·.pnl)).sum :=
  calculate_pnl_all_time_sum ⟨[⟨0, "HYPE", "buy", 1, 100, 0, 100, 3⟩], true⟩ [] 0
    (List.cons_ne_nil _ _) rfl
    (by intro r hr; rw [List.mem_singleton] at hr; subst hr; norm_num)

/-- C2 counterexample: a trade older than the 9999-day cutoff is dropped by
the `"All time"` window, so the returned total (0) differs from the exact sum
of the `pnl` column (7). -/
theorem calculate_pnl_all_time_sum_cex :
    (calculate_pnl ⟨[⟨-10000, "HYPE", "buy", 0, 0, 0, 0, 7⟩], true⟩ [] "All time" 0).1 ≠
      ((⟨[⟨-10000, "HYPE", "buy", 0, 0, 0, 0, 7⟩], true⟩ : TradesDF).rows.map (·.pnl)).sum := by
  have hpt : periodTrades [⟨-10000, "HYPE", "buy", 0, 0, 0, 0, 7⟩] (0:ℚ)
      (periodDays "All time") = [] := by
    rw [periodDays_all]
    simp only [periodTrades, List.filter_cons, List.filter_nil]
    norm_num
  simp only [calculate_pnl, hpt]
  norm_num

/-- C3 (amended): for any fixed trade set whose `value_usd` values are all
non-negative, `calculate_volume` is monotonically non-decreasing as the
period label widens from 24 hours through 7 days and 30 days to All time. -/
theorem calculate_volume_monotone_periods (trades_df : TradesDF) (now : ℚ)
    (hnn : ∀ r ∈ trades_df.rows, 0 ≤ r.value_usd) :
    calculate_volume trades_df "24 hours" now ≤ calculate_volume trades_df "7 days" now ∧
    calculate_volume trades_df "7 days" now ≤ calculate_volume trades_df "30 days" now ∧
    calculate_volume trades_df "30 days" now ≤ calculate_volume trades_df "All time" now := by
  refine ⟨?_, ?_, ?_⟩
  · exact calculate_volume_mono_of_days trades_df now _ _ hnn
      (by rw [periodDays_24, periodDays_7]; norm_num)
  · exact calculate_volume_mono_of_days trades_df now _ _ hnn
      (by rw [periodDays_7, periodDays_30]; norm_num)
  · exact calculate_volume_mono_of_days trades_df now _ _ hnn
      (by rw [periodDays_30, periodDays_all]; norm_num)

/-- C3 witness: a one-trade set with non-negative value. -/
theorem calculate_volume_monotone_periods_witness :
    calculate_volume ⟨[⟨0, "HYPE", "buy", 1, 100, 0, 100, 0⟩], false⟩ "24 hours" 0 ≤
      calculate_volume ⟨[⟨0, "HYPE", "buy", 1, 100, 0, 100, 0⟩], false⟩ "7 days" 0 ∧
    calculate_volume ⟨[⟨0, "HYPE", "buy", 1, 100, 0, 100, 0⟩], false⟩ "7 days" 0 ≤
      calculate_volume ⟨[⟨0, "HYPE", "buy", 1, 100, 0, 100, 0⟩], false⟩ "30 days" 0 ∧
    calculate_volume ⟨[⟨0, "HYPE", "buy", 1, 100, 0, 100, 0⟩], false⟩ "30 days" 0 ≤
      calculate_volume ⟨[⟨0, "HYPE", "buy", 1, 100, 0, 100, 0⟩], false⟩ "All time" 0 :=
  calculate_volume_monotone_periods ⟨[⟨0, "HYPE", "buy", 1, 100, 0, 100, 0⟩], false⟩ 0
    (by intro r hr; rw [List.mem_singleton] at hr; subst hr; norm_num)

/-- C3 counterexample: a trade with negative `value_usd` two days in the past
makes the 7-day volume (−1) smaller than the 24-hour volume (0). -/
theorem calculate_volume_monotone_periods_cex :
    ¬ (calculate_volume ⟨[⟨-2, "X", "sell", 1, 1, 0, -1, 0⟩], false⟩ "24 hours" 0 ≤
       calculate_volume ⟨[⟨-2, "X", "sell", 1, 1, 0, -1, 0⟩], false⟩ "7 days" 0) := by
  have h1 : periodTrades [⟨-2, "X", "sell", 1, 1, 0, -1, 0⟩] (0:ℚ) (periodDays "24 hours") = [] := by
    rw [periodDays_24]
    simp only [periodTrades, List.filter_cons, List.filter_nil]
    norm_num
  have h2 : periodTrades [⟨-2, "X", "sell", 1, 1, 0, -1, 0⟩] (0:ℚ) (periodDays "7 days")
      = [⟨-2, "X", "sell", 1, 1, 0, -1, 0⟩] := by
    rw [periodDays_7]
    simp only [periodTrades, List.filter_cons, List.filter_nil]
    norm_num
  simp only [calculate_volume, h1, h2]
  norm_num

/-- C4 (amended): on a trade set without a `pnl` column and with at least one
trade in the window, the returned percentage equals
`total_pnl / (Σ value_usd over the window / 2) * 100` whenever that
denominator is positive, and is `0` whenever the denominator is ≤ 0 (the
guard `investment > 0` also silences negative denominators); no
division-by-zero error is ever raised. -/
theorem calculate_pnl_percentage_guard (trades_df : TradesDF) (prices : Prices)
    (time_period : String) (now : ℚ)
    (hp : trades_df.hasPnl = false)
    (hw : periodTrades trades_df.rows now (periodDays time_period) ≠ []) :
    (0 < ((periodTrades trades_df.rows now (periodDays time_period)).map (·.value_usd)).sum / 2 →
      (calculate_pnl trades_df prices time_period now).2 =
        (calculate_pnl trades_df prices time_period now).1 /
          (((periodTrades trades_df.rows now (periodDays time_period)).map
            (·.value_usd)).sum / 2) * 100) ∧
    (((periodTrades trades_df.rows now (periodDays time_period)).map (·.value_usd)).sum / 2 ≤ 0 →
      (calculate_pnl trades_df prices time_period now).2 = 0) := by
  have hne : trades_df.rows ≠ [] := by
    intro h
    apply hw
    rw [h]
    rfl
  simp only [calculate_pnl, if_neg hne, if_neg hw, hp, Bool.false_eq_true, if_false]
  constructor
  · intro hpos
    rw [if_pos hpos]
  · intro hle
    rw [if_neg (not_lt.mpr hle)]

/-- C4 witness: the spec scenario, one buy of 100 and one sell of 150 USD,
positive denominator 125. -/
theorem calculate_pnl_percentage_guard_witness :
    (calculate_pnl ⟨[⟨0, "HYPE", "buy", 1, 100, 0, 100, 0⟩,
        ⟨0, "HYPE", "sell", 1, 150, 0, 150, 0⟩], false⟩ [] "30 days" 0).2 =
      (calculate_pnl ⟨[⟨0, "HYPE", "buy", 1, 100, 0, 100, 0⟩,
          ⟨0, "HYPE", "sell", 1, 150, 0, 150, 0⟩], false⟩ [] "30 days" 0).1 /
        (((periodTrades [⟨0, "HYPE", "buy", 1, 100, 0, 100, 0⟩,
            ⟨0, "HYPE", "sell", 1, 150, 0, 150, 0⟩] 0 (periodDays "30 days")).map
          (·.value_usd)).sum / 2) * 100 := by
  have hpt : periodTrades [⟨0, "HYPE", "buy", 1, 100, 0, 100, 0⟩,
      ⟨0, "HYPE", "sell", 1, 150, 0, 150, 0⟩] (0:ℚ) (periodDays "30 days") =
      [⟨0, "HYPE", "buy", 1, 100, 0, 100, 0⟩, ⟨0, "HYPE", "sell", 1, 150, 0, 150, 0⟩] := by
    rw [periodDays_30]
    unfold periodTrades
    rw [List.filter_eq_self]
    intro r hr
    rw [List.mem_cons, List.mem_singleton] at hr
    rcases hr with rfl | rfl <;> exact decide_eq_true (by norm_num)
  exact (calculate_pnl_percentage_guard
      ⟨[⟨0, "HYPE", "buy", 1, 100, 0, 100, 0⟩, ⟨0, "HYPE", "sell", 1, 150, 0, 150, 0⟩], false⟩
      [] "30 days" 0 rfl
      (by rw [hpt]; exact List.cons_ne_nil _ _)).1
    (by rw [hpt]
        simp only [List.map_cons, List.map_nil, List.sum_cons, List.sum_nil]
        norm_num)

/-- C4 counterexample: with one in-window sell of `value_usd = -100` the
denominator is `-50 ≠ 0`, yet the code returns percentage `0` instead of the
claimed `total_pnl / (-50) * 100 = 200`. -/
theorem calculate_pnl_percentage_guard_cex :
    ((periodTrades (⟨[⟨0, "X", "sell", 1, 1, 0, -100, 0⟩], false⟩ : TradesDF).rows 0
        (periodDays "30 days")).map (·.value_usd)).sum / 2 ≠ 0 ∧
    (calculate_pnl ⟨[⟨0, "X", "sell", 1, 1, 0, -100, 0⟩], false⟩ [] "30 days" 0).2 ≠
      (calculate_pnl ⟨[⟨0, "X", "sell", 1, 1, 0, -100, 0⟩], false⟩ [] "30 days" 0).1 /
        (((periodTrades (⟨[⟨0, "X", "sell", 1, 1, 0, -100, 0⟩], false⟩ : TradesDF).rows 0
          (periodDays "30 days")).map (·.value_usd)).sum / 2) * 100 := by
  have hpt : periodTrades [⟨0, "X", "sell", 1, 1, 0, -100, 0⟩] (0:ℚ) (periodDays "30 days") =
      [⟨0, "X", "sell", 1, 1, 0, -100, 0⟩] := by
    rw [periodDays_30]
    simp only [periodTrades, List.filter_cons, List.filter_nil]
    norm_num
  constructor
  · rw [hpt]
    simp only [List.map_cons, List.map_nil, List.sum_cons, List.sum_nil]
    norm_num
  · simp only [calculate_pnl, hpt]
    norm_num [List.filter_cons, List.filter_nil,
      show ("sell" : String) ≠ "buy" from by decide]

/-- C5 (amended): `get_recent_trades` returns at most `limit` rows, ordered by
non-increasing timestamp (descending with ties allowed), for every stored
trade set and every wallet filter. -/
theorem get_recent_trades_bounded_sorted (db : DB) (wallet : Option String) (limit : ℕ) :
    (get_recent_trades db wallet limit).length ≤ limit ∧
    (get_recent_trades db wallet limit).Pairwise (fun a b => b.timestamp ≤ a.timestamp) := by
  unfold get_recent_trades
  constructor
  · exact List.length_take_le _ _
  · exact List.Pairwise.sublist (List.take_sublist _ _) (pairwise_sortByTimestampDesc _)

/-- C5 witness: a concrete two-trade store with distinct timestamps. -/
theorem get_recent_trades_bounded_sorted_witness :
    (get_recent_trades ⟨[], [⟨"w", 1, "A", "buy", 1, 1, 0, 1⟩,
        ⟨"w", 4, "B", "sell", 2, 1, 0, 2⟩]⟩ (some "w") 50).length ≤ 50 ∧
    (get_recent_trades ⟨[], [⟨"w", 1, "A", "buy", 1, 1, 0, 1⟩,
        ⟨"w", 4, "B", "sell", 2, 1, 0, 2⟩]⟩ (some "w") 50).Pairwise
      (fun a b => b.timestamp ≤ a.timestamp) :=
  get_recent_trades_bounded_sorted ⟨[], [⟨"w", 1, "A", "buy", 1, 1, 0, 1⟩,
    ⟨"w", 4, "B", "sell", 2, 1, 0, 2⟩]⟩ (some "w") 50

/-- C5 counterexample: two stored trades sharing a timestamp make the output
non-strict — it is not strictly descending by timestamp. -/
theorem get_recent_trades_strictness_cex :
    ¬ (get_recent_trades ⟨[], [⟨"w", 5, "A", "buy", 1, 1, 0, 1⟩,
        ⟨"w", 5, "B", "sell", 2, 1, 0, 2⟩]⟩ (some "w") 50).Pairwise
      (fun a b => b.timestamp < a.timestamp) := by
  decide

/-- C10 (amended): a call to `store_wallet_data` stamps every inserted
balance row with the single timestamp captured at the start of the call,
while every inserted trade row keeps its source trade's own timestamp. -/
theorem store_wallet_data_timestamp_stamping (db : DB) (w : String) (bs : List Balance)
    (ps : Prices) (df : TradesDF) (t : ℚ) :
    (store_wallet_data db w bs ps (some df) t).balances =
      db.balances ++ bs.map (mkBalanceRow w t ps) ∧
    (∀ r ∈ bs.map (mkBalanceRow w t ps), r.timestamp = t) ∧
    (store_wallet_data db w bs ps (some df) t).trades.map (·.timestamp) =
      db.trades.map (·.timestamp) ++
        (if df.rows = [] then [] else df.rows.map (·.timestamp)) := by
  refine ⟨rfl, ?_, ?_⟩
  · intro r hr
    obtain ⟨b, _, rfl⟩ := List.mem_map.mp hr
    rfl
  · show (db.trades ++
        (if df.rows = [] then [] else df.rows.map (mkStoredTrade w))).map (·.timestamp) = _
    rw [List.map_append]
    congr 1
    by_cases h : df.rows = []
    · rw [if_pos h, if_pos h]
      rfl
    · rw [if_neg h, if_neg h, List.map_map]
      rfl

/-- C10 witness: the inserted balance row of a concrete call is stamped with
the call timestamp. -/
theorem store_wallet_data_timestamp_stamping_witness :
    (mkBalanceRow "w" 10 [] ⟨"HYPE", 1⟩).timestamp = 10 :=
  (store_wallet_data_timestamp_stamping ⟨[], []⟩ "w" [⟨"HYPE", 1⟩] [] ⟨[], false⟩ 10).2.1
    (mkBalanceRow "w" 10 [] ⟨"HYPE", 1⟩) (by simp)

/-- C10 counterexample: a call at timestamp 10 storing a trade dated 5 leaves
the balance row stamped 10 but the trade row stamped 5, so the rows of one
call do not share one identical timestamp. -/
theorem store_wallet_data_timestamp_stamping_cex :
    ((store_wallet_data ⟨[], []⟩ "w" [⟨"HYPE", 1⟩] []
        (some ⟨[⟨5, "X", "buy", 1, 1, 0, 1, 0⟩], false⟩) 10).balances.map
      (·.timestamp) = [10]) ∧
    ((store_wallet_data ⟨[], []⟩ "w" [⟨"HYPE", 1⟩] []
        (some ⟨[⟨5, "X", "buy", 1, 1, 0, 1, 0⟩], false⟩) 10).trades.map
      (·.timestamp) = [5]) ∧
    (5 : ℚ) ≠ 10 := by
  decide
